import Mathlib

/-!
Verification development for the OAuth 2.0 authorization-server core of the
semantic-code-search MCP server (dynamic client registration, authorization
endpoint, token endpoint with PKCE and lock-guarded refresh rotation, signed
state blobs, and the in-memory storage backend).

The TypeScript sources are shallowly embedded:
* JS `Map` objects become association lists `List (String × α)` with
  lookup/insert/erase (only lookup behaviour is relevant);
* `Date.now()` becomes an explicit `nowMs : Nat` parameter;
* random generation (`randomToken`, `randomUUID`) becomes explicit `fresh…`
  string parameters;
* cryptographic primitives (`hmacSha256Hex`, `sha256Base64url`, JSON
  (de)serialization, base64url) become function parameters, with the
  properties a concrete implementation provides stated as hypotheses;
* each `await storage.…` call in a handler is one explicit state transition,
  so intermediate storage states between two awaits are definable;
* thrown errors / HTTP error responses become explicit result constructors.
-/

set_option autoImplicit false

namespace Scs

/-! ## Association-list maps (embedding of JS `Map` as used by `MemoryOAuthStorage`) -/

/-- Lookup in an association list (JS `Map.get`, `undefined` as `none`). -/
def lookupA {α : Type} (k : String) : List (String × α) → Option α
  | [] => none
  | (k', v) :: rest => if k' = k then some v else lookupA k rest

/-- Insert-or-replace (JS `Map.set`). -/
def insertA {α : Type} (k : String) (v : α) : List (String × α) → List (String × α)
  | [] => [(k, v)]
  | (k', v') :: rest => if k' = k then (k, v) :: rest else (k', v') :: insertA k v rest

/-- Removal (JS `Map.delete`). -/
def eraseA {α : Type} (k : String) : List (String × α) → List (String × α)
  | [] => []
  | (k', v') :: rest => if k' = k then eraseA k rest else (k', v') :: eraseA k rest

@[simp] theorem lookupA_insertA_self {α : Type} (k : String) (v : α) (m : List (String × α)) :
    lookupA k (insertA k v m) = some v := by
  induction m with
  | nil => simp [lookupA, insertA]
  | cons hd tl ih =>
    obtain ⟨k', v'⟩ := hd
    by_cases h : k' = k <;> simp [lookupA, insertA, h, ih]

theorem lookupA_insertA_ne {α : Type} {k k' : String} (v : α) (m : List (String × α))
    (h : k' ≠ k) : lookupA k' (insertA k v m) = lookupA k' m := by
  induction m with
  | nil => simp [lookupA, insertA, Ne.symm h]
  | cons hd tl ih =>
    obtain ⟨k'', v''⟩ := hd
    by_cases h2 : k'' = k
    · subst h2
      simp [lookupA, insertA, Ne.symm h]
    · simp [lookupA, insertA, h2, ih]

@[simp] theorem lookupA_eraseA_self {α : Type} (k : String) (m : List (String × α)) :
    lookupA k (eraseA k m) = none := by
  induction m with
  | nil => simp [lookupA, eraseA]
  | cons hd tl ih =>
    obtain ⟨k', v'⟩ := hd
    by_cases h : k' = k <;> simp [lookupA, eraseA, h, ih]

theorem lookupA_eraseA_ne {α : Type} {k k' : String} (m : List (String × α))
    (h : k' ≠ k) : lookupA k' (eraseA k m) = lookupA k' m := by
  induction m with
  | nil => simp [eraseA]
  | cons hd tl ih =>
    obtain ⟨k'', v''⟩ := hd
    by_cases h2 : k'' = k
    · subst h2
      simp [lookupA, eraseA, Ne.symm h, ih]
    · simp [lookupA, eraseA, h2, ih]

theorem eraseA_insertA_of_not_mem {α : Type} (k : String) (v : α) (m : List (String × α))
    (h : lookupA k m = none) : eraseA k (insertA k v m) = m := by
  induction m with
  | nil => simp [insertA, eraseA]
  | cons hd tl ih =>
    obtain ⟨k', v'⟩ := hd
    by_cases h2 : k' = k
    · subst h2
      simp [lookupA] at h
    · simp [lookupA, h2] at h
      simp [insertA, eraseA, h2, ih h]

/-! ## Data model (`src/auth/storage/interface.ts`)

`userClaims : Record<string, unknown>` is embedded as a string-keyed
association list of string values; the handlers only ever read the `sub`
claim (as `String(record.userClaims.sub ?? '')`) and pass the object through
opaquely otherwise. -/

abbrev UserClaims := List (String × String)

/-- `String(claims.sub ?? '')` as used by the token endpoint. -/
def getSub (claims : UserClaims) : String := (lookupA "sub" claims).getD ""

structure OAuthClientMetadata where
  clientId : String
  clientName : Option String := none
  clientUri : Option String := none
  redirectUris : List String
  grantTypes : List String
  responseTypes : List String
  tokenEndpointAuthMethod : String
  scope : Option String := none
  createdAtMs : Nat
deriving Repr, DecidableEq

structure AuthCodeRecord where
  code : String
  clientId : String
  redirectUri : String
  codeChallenge : String
  /-- Statically `'S256'` in the TS type, but checked at runtime by the token
  endpoint, so embedded as an arbitrary string. -/
  codeChallengeMethod : String
  scope : String
  resource : Option String := none
  userClaims : UserClaims
  expiresAtMs : Nat
deriving Repr, DecidableEq

structure RefreshTokenRecord where
  refreshTokenHash : String
  clientId : String
  scope : String
  resource : Option String := none
  userClaims : UserClaims
  expiresAtMs : Nat
  createdAtMs : Nat
deriving Repr, DecidableEq

structure LockEntry where
  token : String
  expiresAtMs : Nat
deriving Repr, DecidableEq

/-- The four maps of `MemoryOAuthStorage` the OAuth endpoints under
verification touch (`clients`, `authCodes`, `refreshTokens`, `locks`); the
`sessions` and `oidcTxs` maps are not involved in any claim. -/
structure MemoryStorage where
  clients : List (String × OAuthClientMetadata) := []
  authCodes : List (String × AuthCodeRecord) := []
  refreshTokens : List (String × RefreshTokenRecord) := []
  locks : List (String × LockEntry) := []
deriving Repr, DecidableEq

/-! ## `MemoryOAuthStorage` operations (`src/auth/routes/authorize.ts`, storage part)

Every operation that consults `Date.now()` takes it as `nowMs`; `acquireLock`
takes the `randomUUID()` result as `freshToken`. -/

def getClient (st : MemoryStorage) (clientId : String) : Option OAuthClientMetadata :=
  lookupA clientId st.clients

def createClient (st : MemoryStorage) (client : OAuthClientMetadata) : MemoryStorage :=
  { st with clients := insertA client.clientId client st.clients }

def putAuthCode (st : MemoryStorage) (record : AuthCodeRecord) : MemoryStorage :=
  { st with authCodes := insertA record.code record st.authCodes }

/-- Read-and-delete: the record is removed from the map even when it turns out
to be expired. -/
def consumeAuthCode (st : MemoryStorage) (code : String) (nowMs : Nat) :
    MemoryStorage × Option AuthCodeRecord :=
  match lookupA code st.authCodes with
  | none => (st, none)
  | some record =>
    let st' := { st with authCodes := eraseA code st.authCodes }
    if record.expiresAtMs < nowMs then (st', none) else (st', some record)

def putRefreshToken (st : MemoryStorage) (record : RefreshTokenRecord) : MemoryStorage :=
  { st with refreshTokens := insertA record.refreshTokenHash record st.refreshTokens }

def getRefreshTokenByHash (st : MemoryStorage) (refreshTokenHash : String) (nowMs : Nat) :
    Option RefreshTokenRecord :=
  match lookupA refreshTokenHash st.refreshTokens with
  | none => none
  | some record => if record.expiresAtMs < nowMs then none else some record

def deleteRefreshTokenByHash (st : MemoryStorage) (refreshTokenHash : String) : MemoryStorage :=
  { st with refreshTokens := eraseA refreshTokenHash st.refreshTokens }

def acquireLock (st : MemoryStorage) (key : String) (ttlSeconds : Nat) (nowMs : Nat)
    (freshToken : String) : MemoryStorage × Option String :=
  match lookupA key st.locks with
  | some existing =>
    if nowMs < existing.expiresAtMs then (st, none)
    else ({ st with locks := insertA key ⟨freshToken, nowMs + ttlSeconds * 1000⟩ st.locks },
          some freshToken)
  | none =>
    ({ st with locks := insertA key ⟨freshToken, nowMs + ttlSeconds * 1000⟩ st.locks },
     some freshToken)

def releaseLock (st : MemoryStorage) (key : String) (token : String) : MemoryStorage :=
  match lookupA key st.locks with
  | none => st
  | some existing =>
    if existing.token = token then { st with locks := eraseA key st.locks } else st

/-! ## PKCE (`src/auth/pkce.ts`)

`sha256Base64url` (from `src/auth/crypto.ts`) is a fixed deterministic
function of its input string; it is a parameter of the embedding. -/

def verifyPkceS256 (sha256Base64url : String → String)
    (codeVerifier codeChallenge : String) : Bool :=
  sha256Base64url codeVerifier == codeChallenge

/-! ## Token endpoint (`src/auth/routes/token.ts`)

`hashRefreshToken cfg.jwtSigningSecret ·` is embedded as the parameter
`hashRefreshToken : String → String` (the secret is fixed).
`randomToken(32)` and the `randomUUID()` inside `acquireLock` become the
`freshRefresh` / `freshLock` parameters. `signAccessToken` is deterministic
in its inputs, so the issued access token is represented by those inputs.
Each handler result also carries the ordered trace of storage operations the
request performed. -/

def ACCESS_TOKEN_TTL_SECONDS : Nat := 8 * 60 * 60
def REFRESH_TOKEN_TTL_SECONDS : Nat := 30 * 24 * 60 * 60
def LOCK_TTL_SECONDS : Nat := 5

/-- Request body of `POST /oauth/token`; the source collapses every
non-string field to `''` before use, so fields are plain strings with `""`
meaning absent. -/
structure TokenRequestBody where
  grant_type : String := ""
  client_id : String := ""
  code : String := ""
  redirect_uri : String := ""
  code_verifier : String := ""
  refresh_token : String := ""
deriving Repr, DecidableEq

/-- The inputs the handler passes to `signAccessToken` that vary per request
(issuer/audience/secret/ttl are fixed by the config). -/
structure AccessTokenData where
  subject : String
  scope : String
  extraClaims : UserClaims
deriving Repr, DecidableEq

inductive TokenResponse where
  | error (status : Nat) (error : String) (desc : Option String)
  | ok (accessToken : AccessTokenData) (expiresIn : Nat) (refreshToken : String) (scope : String)
deriving Repr, DecidableEq

/-- One storage-interface call performed by a handler. -/
inductive StorageOp where
  | getClient (clientId : String)
  | createClient (clientId : String)
  | putAuthCode (code : String)
  | consumeAuthCode (code : String)
  | putRefreshToken (refreshTokenHash : String)
  | getRefreshTokenByHash (refreshTokenHash : String)
  | deleteRefreshTokenByHash (refreshTokenHash : String)
  | acquireLock (key : String)
  | releaseLock (key : String)
deriving Repr, DecidableEq

structure TokenResult where
  state : MemoryStorage
  ops : List StorageOp
  resp : TokenResponse
deriving Repr, DecidableEq

/-- The `grant_type === 'authorization_code'` branch, after the shared
grant-type/client checks. -/
def authCodeGrant (sha256Base64url hashRefreshToken : String → String)
    (st : MemoryStorage) (client : OAuthClientMetadata) (clientId : String)
    (body : TokenRequestBody) (nowMs : Nat) (freshRefresh : String)
    (ops0 : List StorageOp) : TokenResult :=
  if body.code = "" ∨ body.redirect_uri = "" ∨ body.code_verifier = "" then
    ⟨st, ops0, .error 400 "invalid_request" (some "code, redirect_uri, and code_verifier are required")⟩
  else if ¬ client.redirectUris.contains body.redirect_uri then
    ⟨st, ops0, .error 400 "invalid_grant" (some "redirect_uri mismatch")⟩
  else
    let consumed := consumeAuthCode st body.code nowMs
    let st1 := consumed.1
    let ops1 := ops0 ++ [.consumeAuthCode body.code]
    match consumed.2 with
    | none => ⟨st1, ops1, .error 400 "invalid_grant" (some "Invalid or expired code")⟩
    | some record =>
      if record.clientId ≠ clientId ∨ record.redirectUri ≠ body.redirect_uri then
        ⟨st1, ops1, .error 400 "invalid_grant" (some "Invalid code for this client")⟩
      else if record.codeChallengeMethod ≠ "S256"
          ∨ ¬ verifyPkceS256 sha256Base64url body.code_verifier record.codeChallenge then
        ⟨st1, ops1, .error 400 "invalid_grant" (some "PKCE verification failed")⟩
      else if getSub record.userClaims = "" then
        ⟨st1, ops1, .error 400 "invalid_grant" (some "Missing subject")⟩
      else
        let accessToken : AccessTokenData :=
          { subject := getSub record.userClaims, scope := record.scope
            extraClaims := record.userClaims }
        let refreshTokenHash := hashRefreshToken freshRefresh
        let st2 := putRefreshToken st1
          { refreshTokenHash := refreshTokenHash, clientId := clientId, scope := record.scope
            resource := record.resource, userClaims := record.userClaims
            createdAtMs := nowMs, expiresAtMs := nowMs + REFRESH_TOKEN_TTL_SECONDS * 1000 }
        ⟨st2, ops1 ++ [.putRefreshToken refreshTokenHash],
          .ok accessToken ACCESS_TOKEN_TTL_SECONDS freshRefresh record.scope⟩

def rotationLockKey (oldHash : String) : String := "oauth:rtlock:" ++ oldHash

/-- The successor `RefreshTokenRecord` written during rotation. -/
def newRefreshRecord (record : RefreshTokenRecord) (clientId newHash : String)
    (nowMs : Nat) : RefreshTokenRecord :=
  { refreshTokenHash := newHash, clientId := clientId, scope := record.scope
    resource := record.resource, userClaims := record.userClaims
    createdAtMs := nowMs, expiresAtMs := nowMs + REFRESH_TOKEN_TTL_SECONDS * 1000 }

/-- Storage state between the `await storage.putRefreshToken(...)` and the
`await storage.deleteRefreshTokenByHash(oldHash)` of the refresh_token grant:
the successor record has been written and the predecessor record has not yet
been deleted. -/
def rotationMidState (st : MemoryStorage) (record : RefreshTokenRecord)
    (clientId newHash : String) (nowMs : Nat) : MemoryStorage :=
  putRefreshToken st (newRefreshRecord record clientId newHash nowMs)

/-- Body of the `try` block of the refresh_token grant (runs with the
rotation lock held); does not release the lock itself. -/
def refreshTokenGrantLocked (hashRefreshToken : String → String)
    (st1 : MemoryStorage) (clientId oldHash : String) (nowMs : Nat)
    (freshRefresh : String) (ops1 : List StorageOp) : TokenResult :=
  let ops2 := ops1 ++ [.getRefreshTokenByHash oldHash]
  match getRefreshTokenByHash st1 oldHash nowMs with
  | none => ⟨st1, ops2, .error 400 "invalid_grant" (some "Invalid refresh_token")⟩
  | some record =>
    if record.clientId ≠ clientId then
      ⟨st1, ops2, .error 400 "invalid_grant" (some "refresh_token client mismatch")⟩
    else if getSub record.userClaims = "" then
      ⟨st1, ops2, .error 400 "invalid_grant" (some "Missing subject")⟩
    else
      let accessToken : AccessTokenData :=
        { subject := getSub record.userClaims, scope := record.scope
          extraClaims := record.userClaims }
      let newHash := hashRefreshToken freshRefresh
      let stMid := rotationMidState st1 record clientId newHash nowMs
      let st3 := deleteRefreshTokenByHash stMid oldHash
      ⟨st3, ops2 ++ [.putRefreshToken newHash, .deleteRefreshTokenByHash oldHash],
        .ok accessToken ACCESS_TOKEN_TTL_SECONDS freshRefresh record.scope⟩

/-- The `grant_type === 'refresh_token'` branch, after the shared checks. -/
def refreshTokenGrant (hashRefreshToken : String → String) (st : MemoryStorage)
    (clientId : String) (body : TokenRequestBody) (nowMs : Nat)
    (freshRefresh freshLock : String) (ops0 : List StorageOp) : TokenResult :=
  if body.refresh_token = "" then
    ⟨st, ops0, .error 400 "invalid_request" (some "refresh_token is required")⟩
  else
    let oldHash := hashRefreshToken body.refresh_token
    let lockKey := rotationLockKey oldHash
    let acq := acquireLock st lockKey LOCK_TTL_SECONDS nowMs freshLock
    let st1 := acq.1
    let ops1 := ops0 ++ [.acquireLock lockKey]
    match acq.2 with
    | none => ⟨st1, ops1, .error 429 "slow_down" (some "Retry refresh")⟩
    | some lockToken =>
      -- `try { ... } finally { await storage.releaseLock(lockKey, lockToken) }`
      let r := refreshTokenGrantLocked hashRefreshToken st1 clientId oldHash nowMs freshRefresh ops1
      ⟨releaseLock r.state lockKey lockToken, r.ops ++ [.releaseLock lockKey], r.resp⟩

/-- `POST /oauth/token` (`registerTokenRoutes` handler). -/
def tokenEndpoint (sha256Base64url hashRefreshToken : String → String)
    (st : MemoryStorage) (body : TokenRequestBody) (nowMs : Nat)
    (freshRefresh freshLock : String) : TokenResult :=
  if body.grant_type = "" then
    ⟨st, [], .error 400 "invalid_request" (some "grant_type is required")⟩
  else if body.client_id = "" then
    ⟨st, [], .error 400 "invalid_request" (some "client_id is required")⟩
  else
    match getClient st body.client_id with
    | none => ⟨st, [.getClient body.client_id], .error 400 "invalid_client" (some "Unknown client_id")⟩
    | some client =>
      if client.tokenEndpointAuthMethod ≠ "none" then
        ⟨st, [.getClient body.client_id],
          .error 400 "invalid_client" (some "Unsupported token_endpoint_auth_method")⟩
      else if body.grant_type = "authorization_code" then
        authCodeGrant sha256Base64url hashRefreshToken st client body.client_id body nowMs
          freshRefresh [.getClient body.client_id]
      else if body.grant_type = "refresh_token" then
        refreshTokenGrant hashRefreshToken st body.client_id body nowMs freshRefresh freshLock
          [.getClient body.client_id]
      else
        ⟨st, [.getClient body.client_id],
          .error 400 "unsupported_grant_type" (some "Only authorization_code and refresh_token are supported")⟩

/-! ## URL model (platform WHATWG `URL` parser)

`redirectWithError` (authorize endpoint) and
`isLocalhostRedirect` / `isCursorRedirect` (DCR endpoint) consult the
platform's WHATWG `URL` parser — the former for the constructor's throw on an
unparseable string, the latter for `protocol` and `hostname`. `parseUrl`
models that parser for absolute URLs written in the usual `scheme:` /
`scheme://host[:port]/path` forms; `none` models the `URL` constructor
throwing. -/

structure ParsedUrl where
  protocol : String
  hostname : String
deriving Repr, DecidableEq

def isSchemeChar (c : Char) : Bool :=
  c.isAlpha || c.isDigit || c == '+' || c == '-' || c == '.'

def parseUrl (uri : String) : Option ParsedUrl :=
  let cs := uri.toList
  let scheme := cs.takeWhile isSchemeChar
  let rest := cs.drop scheme.length
  match scheme, rest with
  | [], _ => none
  | c0 :: _, ':' :: afterColon =>
    if ¬ c0.isAlpha then none
    else
      let protocol := String.mk (scheme.map Char.toLower) ++ ":"
      match afterColon with
      | '/' :: '/' :: afterSlashes =>
        let authority := afterSlashes.takeWhile (fun c => ¬ (c = '/' ∨ c = '?' ∨ c = '#'))
        let hostport :=
          if authority.contains '@' then (authority.reverse.takeWhile (· ≠ '@')).reverse
          else authority
        match hostport with
        | '[' :: _ =>
          if hostport.contains ']' then
            some ⟨protocol, String.mk ((hostport.takeWhile (· ≠ ']')).map Char.toLower) ++ "]"⟩
          else none
        | _ => some ⟨protocol, String.mk ((hostport.takeWhile (· ≠ ':')).map Char.toLower)⟩
      | _ => some ⟨protocol, ""⟩
  | _, _ => none

/-! ## Authorization endpoint request validation (`src/auth/routes/authorize.ts`)

`req.query` values are `Option String` (the source's `get` helper yields
`undefined` for non-strings). JS truthiness on strings makes both `undefined`
and `''` falsy. -/

/-- JS truthiness of an optional string value. -/
def truthyOpt (o : Option String) : Bool := o.getD "" ≠ ""

structure AuthorizeQuery where
  response_type : Option String := none
  client_id : Option String := none
  redirect_uri : Option String := none
  scope : Option String := none
  state : Option String := none
  code_challenge : Option String := none
  code_challenge_method : Option String := none
  resource : Option String := none
deriving Repr, DecidableEq

structure ClientOAuthRequest where
  response_type : String
  client_id : String
  redirect_uri : String
  scope : Option String
  state : Option String
  code_challenge : String
  code_challenge_method : Option String
  resource : Option String
deriving Repr, DecidableEq

def normalizeOauthReq (q : AuthorizeQuery) : Option ClientOAuthRequest :=
  let client_id := q.client_id.getD ""
  let redirect_uri := q.redirect_uri.getD ""
  let code_challenge := q.code_challenge.getD ""
  if client_id = "" ∨ redirect_uri = "" ∨ code_challenge = "" then none
  else some
    { response_type := q.response_type.getD "", client_id := client_id
      redirect_uri := redirect_uri, scope := q.scope, state := q.state
      code_challenge := code_challenge, code_challenge_method := q.code_challenge_method
      resource := q.resource }

inductive ValidationResult where
  | failure (error : String) (desc : String)
  | success (client : OAuthClientMetadata)
deriving Repr, DecidableEq

def validateClientRequest (st : MemoryStorage) (r : ClientOAuthRequest) : ValidationResult :=
  if r.response_type ≠ "" ∧ r.response_type ≠ "code" then
    .failure "unsupported_response_type" "Only response_type=code is supported"
  else if truthyOpt r.code_challenge_method ∧ r.code_challenge_method.getD "" ≠ "S256" then
    .failure "invalid_request" "Only code_challenge_method=S256 is supported"
  else
    match getClient st r.client_id with
    | none => .failure "unauthorized_client" "Unknown client_id"
    | some client =>
      if ¬ client.redirectUris.contains r.redirect_uri then
        .failure "invalid_request" "redirect_uri does not match registered value"
      else .success client

/-- Response of `GET /oauth/authorize` up to and including request validation.
The post-validation continuation (session lookup, upstream OIDC redirect,
consent page, code issuance) is represented by `proceed` carrying the
validated request and client, since no claim under verification concerns it.
`thrown` models an exception escaping the handler (this code writes no
response on that path). -/
inductive AuthorizeResponse where
  | badRequest (message : String)
  | redirect (base : String) (error : String) (error_description : Option String) (state : Option String)
  | thrown
  | proceed (r : ClientOAuthRequest) (client : OAuthClientMetadata)
deriving Repr, DecidableEq

/-- `redirectWithError`: `new URL(oauthReq.redirect_uri)` — which throws when
the redirect URI cannot be parsed — then a 302 back to it with
`error` / `error_description` (and `state` when truthy) query parameters. -/
def redirectWithError (r : ClientOAuthRequest) (error : String) (desc : Option String) :
    AuthorizeResponse :=
  match parseUrl r.redirect_uri with
  | none => .thrown
  | some _ => .redirect r.redirect_uri error desc (if truthyOpt r.state then r.state else none)

/-- The opening of the `GET /oauth/authorize` handler: normalization of the
query followed by `validateClientRequest`, with `redirectWithError` on
validation failure. -/
def authorizeValidationPhase (st : MemoryStorage) (q : AuthorizeQuery) : AuthorizeResponse :=
  match normalizeOauthReq q with
  | none => .badRequest "Invalid authorization request"
  | some r =>
    match validateClientRequest st r with
    | .failure e d => redirectWithError r e (some d)
    | .success client => .proceed r client

/-! ## DCR endpoint (`src/auth/routes/register.ts`) -/

def isLocalhostRedirect (uri : String) : Bool :=
  match parseUrl uri with
  | none => false
  | some u =>
    if u.protocol == "https:" then true
    else if u.protocol != "http:" then false
    else u.hostname == "localhost" || u.hostname == "127.0.0.1" || u.hostname == "[::1]"

def isCursorRedirect (uri : String) : Bool :=
  match parseUrl uri with
  | none => false
  | some u => u.protocol == "cursor:"

/-- An element of the request's `redirect_uris` array (`typeof` string check). -/
inductive JsonVal where
  | str (s : String)
  | nonString
deriving Repr, DecidableEq

/-- `redirect_uris.filter((u) => typeof u === 'string')`. -/
def strVals : List JsonVal → List String
  | [] => []
  | .str s :: rest => s :: strVals rest
  | .nonString :: rest => strVals rest

structure DcrRequest where
  client_name : Option String := none
  client_uri : Option String := none
  /-- `none` models an absent or non-array `redirect_uris`. -/
  redirect_uris : Option (List JsonVal) := none
  grant_types : Option (List String) := none
  response_types : Option (List String) := none
  token_endpoint_auth_method : Option String := none
  scope : Option String := none
deriving Repr, DecidableEq

inductive DcrResponse where
  | err (status : Nat) (error : String) (desc : String)
  | created (client_id : String) (client_id_issued_at : Nat)
      (redirect_uris grant_types response_types : List String)
      (client_name client_uri scope : Option String)
deriving Repr, DecidableEq

/-- `POST /oauth/register` (`registerDcrRoutes` handler); `randomUUID()`
becomes `freshClientId`, `Date.now()` becomes `nowMs`. -/
def registerEndpoint (st : MemoryStorage) (body : Option DcrRequest) (nowMs : Nat)
    (freshClientId : String) : MemoryStorage × DcrResponse :=
  match body with
  | none => (st, .err 400 "invalid_client_metadata" "redirect_uris is required")
  | some b =>
    match b.redirect_uris with
    | none => (st, .err 400 "invalid_client_metadata" "redirect_uris is required")
    | some rus =>
      if rus.length = 0 then
        (st, .err 400 "invalid_client_metadata" "redirect_uris is required")
      else
        let redirectUris := strVals rus
        if redirectUris.length ≠ rus.length then
          (st, .err 400 "invalid_client_metadata" "redirect_uris must be strings")
        else
          match redirectUris.find? (fun uri => !(isLocalhostRedirect uri || isCursorRedirect uri)) with
          | some uri =>
            (st, .err 400 "invalid_redirect_uri"
              ("redirect_uri must be https, http://localhost, or cursor://: " ++ uri))
          | none =>
            if b.token_endpoint_auth_method.getD "none" ≠ "none" then
              (st, .err 400 "invalid_client_metadata"
                "Only token_endpoint_auth_method=\"none\" is supported")
            else
              let grantTypes := b.grant_types.getD ["authorization_code", "refresh_token"]
              let responseTypes := b.response_types.getD ["code"]
              if ¬ (grantTypes.contains "authorization_code" ∧ responseTypes.contains "code") then
                (st, .err 400 "invalid_client_metadata"
                  "grant_types must include authorization_code and response_types must include code")
              else
                let metadata : OAuthClientMetadata :=
                  { clientId := freshClientId, clientName := b.client_name
                    clientUri := b.client_uri, redirectUris := redirectUris
                    grantTypes := grantTypes, responseTypes := responseTypes
                    tokenEndpointAuthMethod := "none", scope := b.scope, createdAtMs := nowMs }
                (createClient st metadata,
                  .created freshClientId (nowMs / 1000) redirectUris grantTypes responseTypes
                    b.client_name b.client_uri b.scope)

/-! ## Signed expiring state blobs (`src/auth/state.ts`)

JS strings are embedded as `List Char`. The crypto and serialization
collaborators are parameters:
`hmacSha256Hex secret ·` becomes `hmacSha256Hex : List Char → List Char`
(secret fixed), `base64url.encode/decode` become `b64encode`/`b64decode`,
and `JSON.stringify`/`JSON.parse` of the `SignedState` body become
`ser`/`deser` (with `deser` partial, `none` modelling a parse exception).
`Math.floor(Date.now() / 1000)` becomes `nowSec`. -/

structure SignedStateRep (T : Type) where
  payload : T
  iat : Nat
  exp : Nat
deriving Repr, DecidableEq

/-- The characters strictly before the first occurrence of `sep`, and those
strictly after it; `none` when `sep` does not occur. -/
def splitFirst (sep : Char) : List Char → Option (List Char × List Char)
  | [] => none
  | c :: rest =>
    if c = sep then some ([], rest)
    else
      match splitFirst sep rest with
      | none => none
      | some (a, b) => some (c :: a, b)

/-- `s.split(sep, 2)` destructured as `[first, second]`: JS `split` with a
limit truncates, so the first component is everything before the first `sep`
and the second (when a `sep` occurs) everything between the first and second
`sep`. -/
def jsSplit2 (sep : Char) (s : List Char) : List Char × Option (List Char) :=
  match splitFirst sep s with
  | none => (s, none)
  | some (a, rest) =>
    match splitFirst sep rest with
    | none => (a, some rest)
    | some (b, _) => (a, some b)

/-- `timingSafeEqualStr` (`src/auth/crypto.ts`): a length check followed by a
constant-time byte comparison — semantically, string equality. -/
def timingSafeEqualStr (a b : List Char) : Bool := a == b

def signState {T : Type} (hmacSha256Hex b64encode : List Char → List Char)
    (ser : SignedStateRep T → List Char)
    (payload : T) (ttlSeconds : Nat) (nowSec : Nat) : List Char :=
  let body : SignedStateRep T := ⟨payload, nowSec, nowSec + ttlSeconds⟩
  let bodyB64 := b64encode (ser body)
  let sig := hmacSha256Hex bodyB64
  sig ++ '.' :: bodyB64

inductive VerifyError where
  | invalidFormat
  | invalidSignature
  | invalidJson
  | expired
deriving Repr, DecidableEq

def verifyState {T : Type} (hmacSha256Hex b64decode : List Char → List Char)
    (deser : List Char → Option (SignedStateRep T))
    (state : List Char) (nowSec : Nat) : Except VerifyError (SignedStateRep T) :=
  let sp := jsSplit2 '.' state
  match sp.2 with
  | none => .error .invalidFormat
  | some bodyB64 =>
    if sp.1 = [] ∨ bodyB64 = [] then .error .invalidFormat
    else if ¬ timingSafeEqualStr sp.1 (hmacSha256Hex bodyB64) then .error .invalidSignature
    else
      match deser (b64decode bodyB64) with
      | none => .error .invalidJson
      | some decoded => if decoded.exp < nowSec then .error .expired else .ok decoded

/-! ## Claims -/

/-- **C6** (lock mutual exclusion, in-memory backend): once `acquireLock`
returns a token for a key, every further `acquireLock` on that key returns
`null` until the acquirer releases the lock or the lock's TTL has expired;
after a release by the acquirer, or after TTL expiry, acquisition succeeds
again. The in-memory `acquireLock` contains no `await`, so it is atomic in
the event loop and two concurrent calls interleave as two sequential calls:
the later one returns `null`, so no two concurrent calls both succeed. -/
theorem acquireLock_mutual_exclusion
    (st st' : MemoryStorage) (key : String) (ttl n0 : Nat) (tok0 : String)
    (h : acquireLock st key ttl n0 tok0 = (st', some tok0)) :
    (∀ n1 ttl1 tok1, n1 < n0 + ttl * 1000 → (acquireLock st' key ttl1 n1 tok1).2 = none)
    ∧ (∀ n2 ttl2 tok2, (acquireLock (releaseLock st' key tok0) key ttl2 n2 tok2).2 = some tok2)
    ∧ (∀ n3 ttl3 tok3, n0 + ttl * 1000 ≤ n3 → (acquireLock st' key ttl3 n3 tok3).2 = some tok3) := by
  have hlocks : st'.locks = insertA key ⟨tok0, n0 + ttl * 1000⟩ st.locks := by
    unfold acquireLock at h
    cases hl : lookupA key st.locks with
    | none =>
      rw [hl] at h
      simp only [Prod.mk.injEq] at h
      rw [← h.1]
    | some e =>
      rw [hl] at h
      by_cases hn : n0 < e.expiresAtMs
      · simp [hn] at h
      · simp only [if_neg hn, Prod.mk.injEq] at h
        rw [← h.1]
  have hlook : lookupA key st'.locks = some ⟨tok0, n0 + ttl * 1000⟩ := by
    rw [hlocks]; exact lookupA_insertA_self key _ st.locks
  refine ⟨fun n1 ttl1 tok1 hn1 => ?_, fun n2 ttl2 tok2 => ?_, fun n3 ttl3 tok3 hn3 => ?_⟩
  · simp [acquireLock, hlook, hn1]
  · have hrel : (releaseLock st' key tok0).locks = eraseA key st'.locks := by
      simp [releaseLock, hlook]
    simp [acquireLock, hrel, lookupA_eraseA_self]
  · simp [acquireLock, hlook, Nat.not_lt.mpr hn3]

/-- Witness for C6 at a concrete acquisition. -/
theorem acquireLock_mutual_exclusion_witness :
    (∀ n1 ttl1 tok1, n1 < 0 + 5 * 1000 →
      (acquireLock ⟨[], [], [], [("k", ⟨"t", 5000⟩)]⟩ "k" ttl1 n1 tok1).2 = none)
    ∧ (∀ n2 ttl2 tok2,
      (acquireLock (releaseLock ⟨[], [], [], [("k", ⟨"t", 5000⟩)]⟩ "k" "t") "k" ttl2 n2 tok2).2 = some tok2)
    ∧ (∀ n3 ttl3 tok3, 0 + 5 * 1000 ≤ n3 →
      (acquireLock ⟨[], [], [], [("k", ⟨"t", 5000⟩)]⟩ "k" ttl3 n3 tok3).2 = some tok3) :=
  acquireLock_mutual_exclusion ⟨[], [], [], []⟩ ⟨[], [], [], [("k", ⟨"t", 5000⟩)]⟩
    "k" 5 0 "t" (by decide)

/-- **C7**: a refresh_token request finding the rotation lock (keyed by the
token's hash) held responds `429 slow_down`, leaves the storage exactly as it
was (no refresh-token record created, deleted or modified), and its storage
trace is only the client lookup and the failed lock acquisition — no
token-record reads or writes. -/
theorem refresh_lock_held_slow_down
    (sha hashRefreshToken : String → String) (st : MemoryStorage)
    (body : TokenRequestBody) (nowMs : Nat) (freshRefresh freshLock : String)
    (client : OAuthClientMetadata) (e : LockEntry)
    (hg : body.grant_type = "refresh_token") (hc : body.client_id ≠ "")
    (hrt : body.refresh_token ≠ "")
    (hclient : getClient st body.client_id = some client)
    (hauth : client.tokenEndpointAuthMethod = "none")
    (hlock : lookupA (rotationLockKey (hashRefreshToken body.refresh_token)) st.locks = some e)
    (hheld : nowMs < e.expiresAtMs) :
    tokenEndpoint sha hashRefreshToken st body nowMs freshRefresh freshLock =
      ⟨st, [.getClient body.client_id,
            .acquireLock (rotationLockKey (hashRefreshToken body.refresh_token))],
        .error 429 "slow_down" (some "Retry refresh")⟩ := by
  simp [tokenEndpoint, hg, hc, hclient, hauth, refreshTokenGrant, hrt, acquireLock, hlock, hheld]

/-- A bare registered public client used by concrete instances. -/
def clientW : OAuthClientMetadata :=
  { clientId := "c", redirectUris := ["http://localhost/cb"], grantTypes := ["authorization_code"],
    responseTypes := ["code"], tokenEndpointAuthMethod := "none", createdAtMs := 0 }

/-- Concrete storage with client `"c"` registered and the rotation lock for
token hash `"rt"` held until 99 ms. -/
def lockedStW : MemoryStorage :=
  ⟨[("c", clientW)], [], [], [("oauth:rtlock:rt", ⟨"lk", 99⟩)]⟩

/-- Witness for C7 at a concrete held lock. -/
theorem refresh_lock_held_slow_down_witness :
    tokenEndpoint (fun s => s) (fun s => s) lockedStW
      { grant_type := "refresh_token", client_id := "c", refresh_token := "rt" } 0 "fr" "fl" =
      ⟨lockedStW, [.getClient "c", .acquireLock "oauth:rtlock:rt"],
        .error 429 "slow_down" (some "Retry refresh")⟩ :=
  refresh_lock_held_slow_down (fun s => s) (fun s => s) lockedStW
    { grant_type := "refresh_token", client_id := "c", refresh_token := "rt" } 0 "fr" "fl"
    clientW ⟨"lk", 99⟩
    rfl (by decide) (by decide) (by decide) rfl (by decide) (by decide)

/-- **C8** (PKCE): `verifyPkceS256(verifier, sha256Base64url(verifier))` is
true; any challenge other than `sha256Base64url(verifier)` is rejected; and
the token endpoint rejects an authorization code whose stored challenge
method is not `S256` with `invalid_grant` (`PKCE verification failed`). -/
theorem verifyPkceS256_roundtrip
    (sha256Base64url hashRefreshToken : String → String) (verifier : String) :
    verifyPkceS256 sha256Base64url verifier (sha256Base64url verifier) = true
    ∧ (∀ challenge, challenge ≠ sha256Base64url verifier →
        verifyPkceS256 sha256Base64url verifier challenge = false)
    ∧ (∀ (st : MemoryStorage) (body : TokenRequestBody) (client : OAuthClientMetadata)
        (record : AuthCodeRecord) (nowMs : Nat) (freshRefresh freshLock : String),
        body.grant_type = "authorization_code" → body.client_id ≠ "" →
        body.code ≠ "" → body.redirect_uri ≠ "" → body.code_verifier ≠ "" →
        getClient st body.client_id = some client →
        client.tokenEndpointAuthMethod = "none" →
        client.redirectUris.contains body.redirect_uri = true →
        lookupA body.code st.authCodes = some record →
        ¬ record.expiresAtMs < nowMs →
        record.clientId = body.client_id → record.redirectUri = body.redirect_uri →
        record.codeChallengeMethod ≠ "S256" →
        (tokenEndpoint sha256Base64url hashRefreshToken st body nowMs freshRefresh freshLock).resp
          = .error 400 "invalid_grant" (some "PKCE verification failed")) := by
  refine ⟨?_, fun challenge hne => ?_, ?_⟩
  · simp [verifyPkceS256]
  · simp [verifyPkceS256]
    exact Ne.symm hne
  · intro st body client record nowMs fr fl hg hc hcode hruri hver hclient hauth hreg hrec hexp
      hbc hbr hmeth
    have hreg' : body.redirect_uri ∈ client.redirectUris := by simpa using hreg
    simp [tokenEndpoint, hg, hc, hclient, hauth, authCodeGrant, hcode, hruri, hver, hreg',
      consumeAuthCode, hrec, hexp, hbc, hbr, hmeth]

/-- An authorization-code record bound to client `"c"` whose stored challenge
method is `"plain"`, not `"S256"`. -/
def plainMethodRecW : AuthCodeRecord :=
  { code := "code1", clientId := "c", redirectUri := "http://localhost/cb",
    codeChallenge := "v#", codeChallengeMethod := "plain", scope := "mcp:read",
    userClaims := [("sub", "u1")], expiresAtMs := 1000 }

/-- Witness for C8, with `sha256Base64url` instantiated to appending `"#"`. -/
theorem verifyPkceS256_roundtrip_witness :
    verifyPkceS256 (fun s => s ++ "#") "v" ((fun s : String => s ++ "#") "v") = true
    ∧ verifyPkceS256 (fun s => s ++ "#") "v" "other" = false
    ∧ (tokenEndpoint (fun s => s ++ "#") (fun s => s)
        ⟨[("c", clientW)], [("code1", plainMethodRecW)], [], []⟩
        { grant_type := "authorization_code", client_id := "c", code := "code1",
          redirect_uri := "http://localhost/cb", code_verifier := "v" } 0 "fr" "fl").resp
        = .error 400 "invalid_grant" (some "PKCE verification failed") :=
  ⟨(verifyPkceS256_roundtrip (fun s => s ++ "#") (fun s => s) "v").1,
    (verifyPkceS256_roundtrip (fun s => s ++ "#") (fun s => s) "v").2.1 "other" (by decide),
    (verifyPkceS256_roundtrip (fun s => s ++ "#") (fun s => s) "v").2.2
      ⟨[("c", clientW)], [("code1", plainMethodRecW)], [], []⟩
      { grant_type := "authorization_code", client_id := "c", code := "code1",
        redirect_uri := "http://localhost/cb", code_verifier := "v" }
      clientW plainMethodRecW 0 "fr" "fl"
      rfl (by decide) (by decide) (by decide) (by decide) (by decide) rfl (by decide)
      (by decide) (by decide) rfl rfl (by decide)⟩

/-- **C2 counterexample**: when the client is unknown, and likewise when the
`redirect_uri` is not registered for the client, `GET /oauth/authorize` does
NOT render an error page — it redirects the browser to the supplied
`redirect_uri` with `error`/`error_description` query parameters. -/
theorem authorize_untrusted_redirect_counterexample :
    authorizeValidationPhase ⟨[], [], [], []⟩
      { client_id := some "unknown-client", redirect_uri := some "https://client.example/cb",
        code_challenge := some "challenge" } =
      .redirect "https://client.example/cb" "unauthorized_client" (some "Unknown client_id") none
    ∧ authorizeValidationPhase ⟨[("c", clientW)], [], [], []⟩
      { client_id := some "c", redirect_uri := some "https://evil.example/cb",
        code_challenge := some "challenge" } =
      .redirect "https://evil.example/cb" "invalid_request"
        (some "redirect_uri does not match registered value") none := by
  constructor
  · decide
  · decide

/-- **C2 amended**: every `GET /oauth/authorize` request that fails
validation — unsupported `response_type`, unsupported
`code_challenge_method`, unknown `client_id`, or unregistered
`redirect_uri` alike — whose `redirect_uri` parses as a URL is answered
with a redirect to that `redirect_uri` carrying `error`/`error_description`
(plus `state` when present); no error page is rendered. When the
`redirect_uri` of a failing request cannot be parsed, the `new URL`
constructor throws and no redirect is sent; a missing `client_id`,
`redirect_uri` or `code_challenge` yields the bare
400 `Invalid authorization request`. -/
theorem authorize_validation_failure_redirects
    (st : MemoryStorage) (q : AuthorizeQuery) :
    (∀ r e d u, normalizeOauthReq q = some r → validateClientRequest st r = .failure e d →
      parseUrl r.redirect_uri = some u →
      authorizeValidationPhase st q =
        .redirect r.redirect_uri e (some d) (if truthyOpt r.state then r.state else none))
    ∧ (∀ r e d, normalizeOauthReq q = some r → validateClientRequest st r = .failure e d →
      parseUrl r.redirect_uri = none →
      authorizeValidationPhase st q = .thrown)
    ∧ (normalizeOauthReq q = none →
      authorizeValidationPhase st q = .badRequest "Invalid authorization request") := by
  refine ⟨?_, ?_, ?_⟩
  · intro r e d u hn hv hp
    simp [authorizeValidationPhase, hn, hv, redirectWithError, hp]
  · intro r e d hn hv hp
    simp [authorizeValidationPhase, hn, hv, redirectWithError, hp]
  · intro hn
    simp [authorizeValidationPhase, hn]

theorem strVals_map_str (uris : List String) : strVals (uris.map JsonVal.str) = uris := by
  induction uris with
  | nil => rfl
  | cons h t ih => simp [strVals, ih]

/-- **C9** (DCR redirect-URI allowlisting): a registration whose redirect
URIs all pass `isLocalhostRedirect`/`isCursorRedirect` (https, http on
localhost hosts, or the cursor scheme) and whose remaining metadata rules
pass is answered `201` with the fresh client id, the metadata persisted and
echoed; a registration containing a URI that passes neither predicate (for
example `ftp://…`) is answered `400 invalid_redirect_uri` and no client is
stored. -/
theorem registerEndpoint_redirect_allowlist
    (st : MemoryStorage) (b : DcrRequest) (uris : List String) (nowMs : Nat)
    (freshClientId : String)
    (hr : b.redirect_uris = some (uris.map JsonVal.str)) (hne : uris ≠ []) :
    ((∀ uri ∈ uris, (isLocalhostRedirect uri || isCursorRedirect uri) = true) →
      b.token_endpoint_auth_method.getD "none" = "none" →
      (b.grant_types.getD ["authorization_code", "refresh_token"]).contains "authorization_code" = true →
      (b.response_types.getD ["code"]).contains "code" = true →
      registerEndpoint st (some b) nowMs freshClientId =
        (createClient st
          { clientId := freshClientId, clientName := b.client_name, clientUri := b.client_uri,
            redirectUris := uris,
            grantTypes := b.grant_types.getD ["authorization_code", "refresh_token"],
            responseTypes := b.response_types.getD ["code"],
            tokenEndpointAuthMethod := "none", scope := b.scope, createdAtMs := nowMs },
          .created freshClientId (nowMs / 1000) uris
            (b.grant_types.getD ["authorization_code", "refresh_token"])
            (b.response_types.getD ["code"]) b.client_name b.client_uri b.scope))
    ∧ (∀ uri, uris.find? (fun u => !(isLocalhostRedirect u || isCursorRedirect u)) = some uri →
      registerEndpoint st (some b) nowMs freshClientId =
        (st, .err 400 "invalid_redirect_uri"
          ("redirect_uri must be https, http://localhost, or cursor://: " ++ uri))) := by
  constructor
  · intro hall hauth hg hresp
    have hg' : "authorization_code" ∈ b.grant_types.getD ["authorization_code", "refresh_token"] := by
      simpa using hg
    have hresp' : "code" ∈ b.response_types.getD ["code"] := by
      simpa using hresp
    have hfind : uris.find? (fun u => !isLocalhostRedirect u && !isCursorRedirect u) = none := by
      apply List.find?_eq_none.mpr
      intro x hx
      have h1 := hall x hx
      cases hl : isLocalhostRedirect x <;> cases hc : isCursorRedirect x <;> simp_all
    simp [registerEndpoint, hr, strVals_map_str, hne, hfind, hauth, hg', hresp']
  · intro uri hfind
    simp only [Bool.not_or] at hfind
    simp [registerEndpoint, hr, strVals_map_str, hne, hfind]

/-- Witness for C9: a concrete allowlisted registration succeeds and a
concrete `ftp://` registration is rejected without storing a client. -/
theorem registerEndpoint_redirect_allowlist_witness :
    registerEndpoint ⟨[], [], [], []⟩
      (some { redirect_uris := some (["https://example.com/cb", "http://localhost:3000/cb",
        "cursor://anysphere.cursor-mcp/oauth/callback"].map JsonVal.str) }) 1234 "new-client" =
      (createClient ⟨[], [], [], []⟩
        { clientId := "new-client", clientName := none, clientUri := none,
          redirectUris := ["https://example.com/cb", "http://localhost:3000/cb",
            "cursor://anysphere.cursor-mcp/oauth/callback"],
          grantTypes := ["authorization_code", "refresh_token"], responseTypes := ["code"],
          tokenEndpointAuthMethod := "none", scope := none, createdAtMs := 1234 },
        .created "new-client" 1 ["https://example.com/cb", "http://localhost:3000/cb",
            "cursor://anysphere.cursor-mcp/oauth/callback"]
          ["authorization_code", "refresh_token"] ["code"] none none none)
    ∧ registerEndpoint ⟨[], [], [], []⟩
      (some { redirect_uris := some (["ftp://example.com/callback"].map JsonVal.str) }) 1234 "x" =
      (⟨[], [], [], []⟩, .err 400 "invalid_redirect_uri"
        ("redirect_uri must be https, http://localhost, or cursor://: " ++ "ftp://example.com/callback")) :=
  ⟨(registerEndpoint_redirect_allowlist ⟨[], [], [], []⟩
      { redirect_uris := some (["https://example.com/cb", "http://localhost:3000/cb",
        "cursor://anysphere.cursor-mcp/oauth/callback"].map JsonVal.str) }
      ["https://example.com/cb", "http://localhost:3000/cb",
        "cursor://anysphere.cursor-mcp/oauth/callback"] 1234 "new-client" rfl (by decide)).1
      (by decide) rfl (by decide) (by decide),
    (registerEndpoint_redirect_allowlist ⟨[], [], [], []⟩
      { redirect_uris := some (["ftp://example.com/callback"].map JsonVal.str) }
      ["ftp://example.com/callback"] 1234 "x" rfl (by decide)).2
      "ftp://example.com/callback" (by decide)⟩

/-- Witness for the amended C2: a concrete unregistered-but-parseable
`redirect_uri` is answered with a redirect, and a concrete unparseable
`redirect_uri` on a failing request makes the handler throw. -/
theorem authorize_validation_failure_redirects_witness :
    authorizeValidationPhase ⟨[("c", clientW)], [], [], []⟩
      { client_id := some "c", redirect_uri := some "https://other.example/cb",
        code_challenge := some "challenge", state := some "xyz" } =
      .redirect "https://other.example/cb" "invalid_request"
        (some "redirect_uri does not match registered value") (some "xyz")
    ∧ authorizeValidationPhase ⟨[], [], [], []⟩
      { client_id := some "x", redirect_uri := some "%%%",
        code_challenge := some "c" } = .thrown :=
  ⟨(authorize_validation_failure_redirects ⟨[("c", clientW)], [], [], []⟩
      { client_id := some "c", redirect_uri := some "https://other.example/cb",
        code_challenge := some "challenge", state := some "xyz" }).1
    { response_type := "", client_id := "c", redirect_uri := "https://other.example/cb",
      scope := none, state := some "xyz", code_challenge := "challenge",
      code_challenge_method := none, resource := none }
    "invalid_request" "redirect_uri does not match registered value"
    ⟨"https:", "other.example"⟩ (by decide) (by decide) (by decide),
    (authorize_validation_failure_redirects ⟨[], [], [], []⟩
      { client_id := some "x", redirect_uri := some "%%%",
        code_challenge := some "c" }).2.1
    { response_type := "", client_id := "x", redirect_uri := "%%%",
      scope := none, state := none, code_challenge := "c",
      code_challenge_method := none, resource := none }
    "unauthorized_client" "Unknown client_id" (by decide) (by decide) (by decide)⟩

/-- **C4** (single-use authorization code): a successful authorization_code
exchange answers `200` with the token data, removes the stored
`AuthCodeRecord` (read-and-delete), and any second exchange presenting the
same code is answered `400 invalid_grant`. -/
theorem authorization_code_single_use
    (sha hashRefreshToken : String → String) (st : MemoryStorage)
    (body : TokenRequestBody) (nowMs : Nat) (freshRefresh freshLock : String)
    (client : OAuthClientMetadata) (record : AuthCodeRecord)
    (hg : body.grant_type = "authorization_code") (hc : body.client_id ≠ "")
    (hcode : body.code ≠ "") (hruri : body.redirect_uri ≠ "") (hver : body.code_verifier ≠ "")
    (hclient : getClient st body.client_id = some client)
    (hauth : client.tokenEndpointAuthMethod = "none")
    (hreg : client.redirectUris.contains body.redirect_uri = true)
    (hrec : lookupA body.code st.authCodes = some record)
    (hexp : ¬ record.expiresAtMs < nowMs)
    (hbc : record.clientId = body.client_id) (hbr : record.redirectUri = body.redirect_uri)
    (hmeth : record.codeChallengeMethod = "S256")
    (hpkce : sha body.code_verifier = record.codeChallenge)
    (hsub : getSub record.userClaims ≠ "") :
    (tokenEndpoint sha hashRefreshToken st body nowMs freshRefresh freshLock).resp =
      .ok ⟨getSub record.userClaims, record.scope, record.userClaims⟩
        ACCESS_TOKEN_TTL_SECONDS freshRefresh record.scope
    ∧ lookupA body.code
        (tokenEndpoint sha hashRefreshToken st body nowMs freshRefresh freshLock).state.authCodes
        = none
    ∧ (∀ (body2 : TokenRequestBody) (nowMs2 : Nat) (fr2 fl2 : String)
        (client2 : OAuthClientMetadata),
        body2.grant_type = "authorization_code" → body2.client_id ≠ "" →
        body2.code = body.code → body2.redirect_uri ≠ "" → body2.code_verifier ≠ "" →
        getClient st body2.client_id = some client2 →
        client2.tokenEndpointAuthMethod = "none" →
        client2.redirectUris.contains body2.redirect_uri = true →
        (tokenEndpoint sha hashRefreshToken
            (tokenEndpoint sha hashRefreshToken st body nowMs freshRefresh freshLock).state
            body2 nowMs2 fr2 fl2).resp = .error 400 "invalid_grant" (some "Invalid or expired code")) := by
  have hreg' : body.redirect_uri ∈ client.redirectUris := by simpa using hreg
  have hrun : tokenEndpoint sha hashRefreshToken st body nowMs freshRefresh freshLock =
      ⟨{ st with
          authCodes := eraseA body.code st.authCodes
          refreshTokens := insertA (hashRefreshToken freshRefresh)
            { refreshTokenHash := hashRefreshToken freshRefresh, clientId := body.client_id,
              scope := record.scope, resource := record.resource,
              userClaims := record.userClaims, createdAtMs := nowMs,
              expiresAtMs := nowMs + REFRESH_TOKEN_TTL_SECONDS * 1000 } st.refreshTokens },
        [.getClient body.client_id, .consumeAuthCode body.code,
          .putRefreshToken (hashRefreshToken freshRefresh)],
        .ok ⟨getSub record.userClaims, record.scope, record.userClaims⟩
          ACCESS_TOKEN_TTL_SECONDS freshRefresh record.scope⟩ := by
    simp [tokenEndpoint, hg, hc, hclient, hauth, authCodeGrant, hcode, hruri, hver, hreg',
      consumeAuthCode, hrec, hexp, hbc, hbr, hmeth, verifyPkceS256, hpkce, hsub,
      putRefreshToken]
  refine ⟨by rw [hrun], by rw [hrun]; simp [lookupA_eraseA_self], ?_⟩
  intro body2 nowMs2 fr2 fl2 client2 hg2 hc2 hcode2 hruri2 hver2 hclient2 hauth2 hreg2
  have hreg2' : body2.redirect_uri ∈ client2.redirectUris := by simpa using hreg2
  rw [hrun]
  have hclient2' : getClient
      { st with
        authCodes := eraseA body.code st.authCodes
        refreshTokens := insertA (hashRefreshToken freshRefresh)
          { refreshTokenHash := hashRefreshToken freshRefresh, clientId := body.client_id,
            scope := record.scope, resource := record.resource,
            userClaims := record.userClaims, createdAtMs := nowMs,
            expiresAtMs := nowMs + REFRESH_TOKEN_TTL_SECONDS * 1000 } st.refreshTokens }
      body2.client_id = some client2 := hclient2
  simp [tokenEndpoint, hg2, hc2, hclient2', hauth2, authCodeGrant, hcode2, hcode, hruri2, hver2,
    hreg2', consumeAuthCode, lookupA_eraseA_self]

/-- A stored S256-bound authorization code for client `"c"` (challenge is
`sha "v"` for `sha := (· ++ "#")`). -/
def codeRecW : AuthCodeRecord :=
  { code := "code1", clientId := "c", redirectUri := "http://localhost/cb",
    codeChallenge := "v#", codeChallengeMethod := "S256", scope := "mcp:read",
    userClaims := [("sub", "u1")], expiresAtMs := 1000 }

/-- Storage with client `"c"` registered and `codeRecW` stored. -/
def authStW : MemoryStorage := ⟨[("c", clientW)], [("code1", codeRecW)], [], []⟩

/-- A correct authorization_code exchange request for `codeRecW`. -/
def codeBodyW : TokenRequestBody :=
  { grant_type := "authorization_code", client_id := "c", code := "code1",
    redirect_uri := "http://localhost/cb", code_verifier := "v" }

/-- Witness for C4 at a concrete code exchange followed by a replay. -/
theorem authorization_code_single_use_witness :
    (tokenEndpoint (fun s => s ++ "#") (fun s => s) authStW codeBodyW 0 "fr" "fl").resp =
      .ok ⟨getSub codeRecW.userClaims, codeRecW.scope, codeRecW.userClaims⟩
        ACCESS_TOKEN_TTL_SECONDS "fr" codeRecW.scope
    ∧ lookupA "code1"
        (tokenEndpoint (fun s => s ++ "#") (fun s => s) authStW codeBodyW 0 "fr" "fl").state.authCodes
        = none
    ∧ (tokenEndpoint (fun s => s ++ "#") (fun s => s)
        (tokenEndpoint (fun s => s ++ "#") (fun s => s) authStW codeBodyW 0 "fr" "fl").state
        codeBodyW 5 "fr2" "fl2").resp = .error 400 "invalid_grant" (some "Invalid or expired code") := by
  have h := authorization_code_single_use (fun s => s ++ "#") (fun s => s) authStW codeBodyW
    0 "fr" "fl" clientW codeRecW rfl (by decide) (by decide) (by decide) (by decide)
    (by decide) rfl (by decide) (by decide) (by decide) rfl rfl rfl (by decide) (by decide)
  exact ⟨h.1, h.2.1, h.2.2 codeBodyW 5 "fr2" "fl2" clientW rfl (by decide) rfl (by decide)
    (by decide) (by decide) rfl (by decide)⟩

/-- **C10** (implicit; failed exchange still consumes the code): the token
endpoint consumes the `AuthCodeRecord` before the code-binding and PKCE
checks, so an exchange attempt that reaches the consume step and then fails
PKCE (wrong `code_verifier`) deletes the record, and a later exchange of the
same code with all-correct parameters is answered
`invalid_grant` (`Invalid or expired code`). -/
theorem failed_exchange_consumes_code
    (sha hashRefreshToken : String → String) (st : MemoryStorage)
    (body : TokenRequestBody) (nowMs : Nat) (freshRefresh freshLock : String)
    (client : OAuthClientMetadata) (record : AuthCodeRecord)
    (hg : body.grant_type = "authorization_code") (hc : body.client_id ≠ "")
    (hcode : body.code ≠ "") (hruri : body.redirect_uri ≠ "") (hver : body.code_verifier ≠ "")
    (hclient : getClient st body.client_id = some client)
    (hauth : client.tokenEndpointAuthMethod = "none")
    (hreg : client.redirectUris.contains body.redirect_uri = true)
    (hrec : lookupA body.code st.authCodes = some record)
    (hexp : ¬ record.expiresAtMs < nowMs)
    (hbc : record.clientId = body.client_id) (hbr : record.redirectUri = body.redirect_uri)
    (hmeth : record.codeChallengeMethod = "S256")
    (hpkce : sha body.code_verifier ≠ record.codeChallenge) :
    (tokenEndpoint sha hashRefreshToken st body nowMs freshRefresh freshLock).resp =
      .error 400 "invalid_grant" (some "PKCE verification failed")
    ∧ lookupA body.code
        (tokenEndpoint sha hashRefreshToken st body nowMs freshRefresh freshLock).state.authCodes
        = none
    ∧ (∀ (body2 : TokenRequestBody) (nowMs2 : Nat) (fr2 fl2 : String)
        (client2 : OAuthClientMetadata),
        body2.grant_type = "authorization_code" → body2.client_id ≠ "" →
        body2.code = body.code → body2.redirect_uri ≠ "" → body2.code_verifier ≠ "" →
        getClient st body2.client_id = some client2 →
        client2.tokenEndpointAuthMethod = "none" →
        client2.redirectUris.contains body2.redirect_uri = true →
        body2.client_id = record.clientId → body2.redirect_uri = record.redirectUri →
        sha body2.code_verifier = record.codeChallenge →
        (tokenEndpoint sha hashRefreshToken
            (tokenEndpoint sha hashRefreshToken st body nowMs freshRefresh freshLock).state
            body2 nowMs2 fr2 fl2).resp = .error 400 "invalid_grant" (some "Invalid or expired code")) := by
  have hreg' : body.redirect_uri ∈ client.redirectUris := by simpa using hreg
  have hrun : tokenEndpoint sha hashRefreshToken st body nowMs freshRefresh freshLock =
      ⟨{ st with
          authCodes := eraseA body.code st.authCodes },
        [.getClient body.client_id, .consumeAuthCode body.code],
        .error 400 "invalid_grant" (some "PKCE verification failed")⟩ := by
    simp [tokenEndpoint, hg, hc, hclient, hauth, authCodeGrant, hcode, hruri, hver, hreg',
      consumeAuthCode, hrec, hexp, hbc, hbr, hmeth, verifyPkceS256, hpkce]
  refine ⟨by rw [hrun], by rw [hrun]; simp [lookupA_eraseA_self], ?_⟩
  intro body2 nowMs2 fr2 fl2 client2 hg2 hc2 hcode2 hruri2 hver2 hclient2 hauth2 hreg2 _ _ _
  have hreg2' : body2.redirect_uri ∈ client2.redirectUris := by simpa using hreg2
  rw [hrun]
  have hclient2' : getClient
      { st with
        authCodes := eraseA body.code st.authCodes }
      body2.client_id = some client2 := hclient2
  simp [tokenEndpoint, hg2, hc2, hclient2', hauth2, authCodeGrant, hcode2, hcode, hruri2, hver2,
    hreg2', consumeAuthCode, lookupA_eraseA_self]

/-- Witness for C10: a wrong-verifier exchange deletes the code and a
subsequent all-correct exchange fails. -/
theorem failed_exchange_consumes_code_witness :
    (tokenEndpoint (fun s => s ++ "#") (fun s => s) authStW
        { grant_type := "authorization_code", client_id := "c", code := "code1",
          redirect_uri := "http://localhost/cb", code_verifier := "wrong" } 0 "fr" "fl").resp =
      .error 400 "invalid_grant" (some "PKCE verification failed")
    ∧ lookupA "code1"
        (tokenEndpoint (fun s => s ++ "#") (fun s => s) authStW
          { grant_type := "authorization_code", client_id := "c", code := "code1",
            redirect_uri := "http://localhost/cb", code_verifier := "wrong" } 0 "fr" "fl").state.authCodes
        = none
    ∧ (tokenEndpoint (fun s => s ++ "#") (fun s => s)
        (tokenEndpoint (fun s => s ++ "#") (fun s => s) authStW
          { grant_type := "authorization_code", client_id := "c", code := "code1",
            redirect_uri := "http://localhost/cb", code_verifier := "wrong" } 0 "fr" "fl").state
        codeBodyW 5 "fr2" "fl2").resp = .error 400 "invalid_grant" (some "Invalid or expired code") := by
  have h := failed_exchange_consumes_code (fun s => s ++ "#") (fun s => s) authStW
    { grant_type := "authorization_code", client_id := "c", code := "code1",
      redirect_uri := "http://localhost/cb", code_verifier := "wrong" }
    0 "fr" "fl" clientW codeRecW rfl (by decide) (by decide) (by decide) (by decide)
    (by decide) rfl (by decide) (by decide) (by decide) rfl rfl rfl (by decide)
  exact ⟨h.1, h.2.1, h.2.2 codeBodyW 5 "fr2" "fl2" clientW rfl (by decide) rfl (by decide)
    (by decide) (by decide) rfl (by decide) rfl rfl (by decide)⟩

/-- Run equation for a successful refresh_token rotation: the handler writes
the successor record, deletes the predecessor record, and restores the lock
map (acquire + release cancel on a previously free key). -/
theorem refresh_rotation_run
    (sha hashRefreshToken : String → String) (st : MemoryStorage)
    (body : TokenRequestBody) (nowMs : Nat) (freshRefresh freshLock : String)
    (client : OAuthClientMetadata) (record : RefreshTokenRecord)
    (hg : body.grant_type = "refresh_token") (hc : body.client_id ≠ "")
    (hrt : body.refresh_token ≠ "")
    (hclient : getClient st body.client_id = some client)
    (hauth : client.tokenEndpointAuthMethod = "none")
    (hlockfree : lookupA (rotationLockKey (hashRefreshToken body.refresh_token)) st.locks = none)
    (hrec : lookupA (hashRefreshToken body.refresh_token) st.refreshTokens = some record)
    (hexp : ¬ record.expiresAtMs < nowMs)
    (hbc : record.clientId = body.client_id)
    (hsub : getSub record.userClaims ≠ "") :
    tokenEndpoint sha hashRefreshToken st body nowMs freshRefresh freshLock =
      ⟨{ st with
          refreshTokens := eraseA (hashRefreshToken body.refresh_token)
            (insertA (hashRefreshToken freshRefresh)
              (newRefreshRecord record body.client_id (hashRefreshToken freshRefresh) nowMs)
              st.refreshTokens) },
        [.getClient body.client_id,
          .acquireLock (rotationLockKey (hashRefreshToken body.refresh_token)),
          .getRefreshTokenByHash (hashRefreshToken body.refresh_token),
          .putRefreshToken (hashRefreshToken freshRefresh),
          .deleteRefreshTokenByHash (hashRefreshToken body.refresh_token),
          .releaseLock (rotationLockKey (hashRefreshToken body.refresh_token))],
        .ok ⟨getSub record.userClaims, record.scope, record.userClaims⟩
          ACCESS_TOKEN_TTL_SECONDS freshRefresh record.scope⟩ := by
  have hrestore : eraseA (rotationLockKey (hashRefreshToken body.refresh_token))
      (insertA (rotationLockKey (hashRefreshToken body.refresh_token))
        ⟨freshLock, nowMs + LOCK_TTL_SECONDS * 1000⟩ st.locks) = st.locks :=
    eraseA_insertA_of_not_mem _ _ _ hlockfree
  simp [tokenEndpoint, hg, hc, hclient, hauth, refreshTokenGrant, hrt, acquireLock, hlockfree,
    refreshTokenGrantLocked, getRefreshTokenByHash, hrec, hexp, hbc, hsub, rotationMidState,
    putRefreshToken, deleteRefreshTokenByHash, releaseLock, lookupA_insertA_self, hrestore,
    newRefreshRecord]

/-- **C3** (refresh rotation invalidates the predecessor): a successful
refresh_token exchange answers `200` with a fresh refresh token; afterwards
replaying the old refresh-token value is answered `400 invalid_grant`, while
presenting the newly returned value (same client, before its expiry)
succeeds with a `200` token response. -/
theorem refresh_rotation_invalidates_predecessor
    (sha hashRefreshToken : String → String) (st : MemoryStorage)
    (body : TokenRequestBody) (nowMs : Nat) (freshRefresh freshLock : String)
    (client : OAuthClientMetadata) (record : RefreshTokenRecord)
    (hg : body.grant_type = "refresh_token") (hc : body.client_id ≠ "")
    (hrt : body.refresh_token ≠ "")
    (hclient : getClient st body.client_id = some client)
    (hauth : client.tokenEndpointAuthMethod = "none")
    (hlockfree : lookupA (rotationLockKey (hashRefreshToken body.refresh_token)) st.locks = none)
    (hrec : lookupA (hashRefreshToken body.refresh_token) st.refreshTokens = some record)
    (hexp : ¬ record.expiresAtMs < nowMs)
    (hbc : record.clientId = body.client_id)
    (hsub : getSub record.userClaims ≠ "")
    (hneq : hashRefreshToken freshRefresh ≠ hashRefreshToken body.refresh_token)
    (hlockfree2 : lookupA (rotationLockKey (hashRefreshToken freshRefresh)) st.locks = none)
    (hfr : freshRefresh ≠ "") :
    (tokenEndpoint sha hashRefreshToken st body nowMs freshRefresh freshLock).resp =
      .ok ⟨getSub record.userClaims, record.scope, record.userClaims⟩
        ACCESS_TOKEN_TTL_SECONDS freshRefresh record.scope
    ∧ (∀ (nowMs2 : Nat) (fr2 fl2 : String),
        (tokenEndpoint sha hashRefreshToken
          (tokenEndpoint sha hashRefreshToken st body nowMs freshRefresh freshLock).state
          { grant_type := "refresh_token", client_id := body.client_id,
            refresh_token := body.refresh_token } nowMs2 fr2 fl2).resp =
          .error 400 "invalid_grant" (some "Invalid refresh_token"))
    ∧ (∀ (nowMs3 : Nat) (fr3 fl3 : String), nowMs3 ≤ nowMs + REFRESH_TOKEN_TTL_SECONDS * 1000 →
        (tokenEndpoint sha hashRefreshToken
          (tokenEndpoint sha hashRefreshToken st body nowMs freshRefresh freshLock).state
          { grant_type := "refresh_token", client_id := body.client_id,
            refresh_token := freshRefresh } nowMs3 fr3 fl3).resp =
          .ok ⟨getSub record.userClaims, record.scope, record.userClaims⟩
            ACCESS_TOKEN_TTL_SECONDS fr3 record.scope) := by
  have hrun := refresh_rotation_run sha hashRefreshToken st body nowMs freshRefresh freshLock
    client record hg hc hrt hclient hauth hlockfree hrec hexp hbc hsub
  have hclient' : lookupA body.client_id st.clients = some client := hclient
  refine ⟨by rw [hrun], ?_, ?_⟩
  · intro nowMs2 fr2 fl2
    rw [hrun]
    simp [tokenEndpoint, getClient, hc, hclient', hauth, refreshTokenGrant, hrt, acquireLock,
      hlockfree, refreshTokenGrantLocked, getRefreshTokenByHash, lookupA_eraseA_self,
      releaseLock]
  · intro nowMs3 fr3 fl3 h3
    rw [hrun]
    have hlook : lookupA (hashRefreshToken freshRefresh)
        (eraseA (hashRefreshToken body.refresh_token)
          (insertA (hashRefreshToken freshRefresh)
            (newRefreshRecord record body.client_id (hashRefreshToken freshRefresh) nowMs)
            st.refreshTokens)) =
        some (newRefreshRecord record body.client_id (hashRefreshToken freshRefresh) nowMs) := by
      rw [lookupA_eraseA_ne _ hneq]
      exact lookupA_insertA_self _ _ _
    have hexp3 : ¬ (newRefreshRecord record body.client_id
        (hashRefreshToken freshRefresh) nowMs).expiresAtMs < nowMs3 := by
      simp only [newRefreshRecord]
      omega
    simp only [newRefreshRecord] at hlook hexp3
    simp [tokenEndpoint, getClient, hc, hclient', hauth, refreshTokenGrant, hfr, acquireLock,
      hlockfree2, refreshTokenGrantLocked, getRefreshTokenByHash, hlook, hexp3,
      newRefreshRecord, hsub, releaseLock]

/-- A stored refresh-token record for client `"c"` under hash `"old#"`
(`hashRefreshToken := (· ++ "#")` on token value `"old"`). -/
def rtRecW : RefreshTokenRecord :=
  { refreshTokenHash := "old#", clientId := "c", scope := "mcp:read",
    userClaims := [("sub", "u1")], expiresAtMs := 1000000, createdAtMs := 0 }

/-- Storage with client `"c"` and refresh record `rtRecW`, no locks held. -/
def rtStW : MemoryStorage := ⟨[("c", clientW)], [], [("old#", rtRecW)], []⟩

/-- A refresh_token exchange request presenting token value `"old"`. -/
def rtBodyW : TokenRequestBody :=
  { grant_type := "refresh_token", client_id := "c", refresh_token := "old" }

/-- `rtStW` right after the rotation lock for `"old#"` was acquired at 0 ms
with the 5 s TTL (the state the rotation's `try` block starts from). -/
def rtLockedStW : MemoryStorage :=
  ⟨[("c", clientW)], [], [("old#", rtRecW)], [("oauth:rtlock:old#", ⟨"fl", 5000⟩)]⟩

/-- Witness for C3 at a concrete rotation, replay of `"old"`, and redemption
of the new token `"new"`. -/
theorem refresh_rotation_invalidates_predecessor_witness :
    (tokenEndpoint (fun s => s) (fun s => s ++ "#") rtStW rtBodyW 0 "new" "fl").resp =
      .ok ⟨getSub rtRecW.userClaims, rtRecW.scope, rtRecW.userClaims⟩
        ACCESS_TOKEN_TTL_SECONDS "new" rtRecW.scope
    ∧ (tokenEndpoint (fun s => s) (fun s => s ++ "#")
        (tokenEndpoint (fun s => s) (fun s => s ++ "#") rtStW rtBodyW 0 "new" "fl").state
        { grant_type := "refresh_token", client_id := "c", refresh_token := "old" }
        7 "n2" "fl2").resp = .error 400 "invalid_grant" (some "Invalid refresh_token")
    ∧ (tokenEndpoint (fun s => s) (fun s => s ++ "#")
        (tokenEndpoint (fun s => s) (fun s => s ++ "#") rtStW rtBodyW 0 "new" "fl").state
        { grant_type := "refresh_token", client_id := "c", refresh_token := "new" }
        7 "n3" "fl3").resp =
      .ok ⟨getSub rtRecW.userClaims, rtRecW.scope, rtRecW.userClaims⟩
        ACCESS_TOKEN_TTL_SECONDS "n3" rtRecW.scope := by
  have h := refresh_rotation_invalidates_predecessor (fun s => s) (fun s => s ++ "#")
    rtStW rtBodyW 0 "new" "fl" clientW rtRecW rfl (by decide) (by decide) (by decide) rfl
    (by decide) (by decide) (by decide) rfl (by decide) (by decide) (by decide) (by decide)
  exact ⟨h.1, h.2.1 7 "n2" "fl2", h.2.2 7 "n3" "fl3" (by decide)⟩

/-- **C1 counterexample**: at a concrete rotation, the handler's storage-op
trace performs `putRefreshToken` of the successor strictly before
`deleteRefreshTokenByHash` of the predecessor, and in the storage state
between those two writes both records of the refresh chain are present
simultaneously (and both unexpired) — so the deletion is not atomic with the
creation, and a reachable state holds two valid records of one chain. -/
theorem refresh_rotation_not_atomic_counterexample :
    (tokenEndpoint (fun s => s) (fun s => s ++ "#") rtStW rtBodyW 0 "new" "fl").resp =
      .ok ⟨"u1", "mcp:read", [("sub", "u1")]⟩ ACCESS_TOKEN_TTL_SECONDS "new" "mcp:read"
    ∧ (tokenEndpoint (fun s => s) (fun s => s ++ "#") rtStW rtBodyW 0 "new" "fl").ops =
      [.getClient "c", .acquireLock "oauth:rtlock:old#", .getRefreshTokenByHash "old#",
        .putRefreshToken "new#", .deleteRefreshTokenByHash "old#",
        .releaseLock "oauth:rtlock:old#"]
    ∧ lookupA "old#" (rotationMidState rtLockedStW rtRecW "c" "new#" 0).refreshTokens =
      some rtRecW
    ∧ lookupA "new#" (rotationMidState rtLockedStW rtRecW "c" "new#" 0).refreshTokens =
      some (newRefreshRecord rtRecW "c" "new#" 0)
    ∧ ¬ rtRecW.expiresAtMs < 0
    ∧ ¬ (newRefreshRecord rtRecW "c" "new#" 0).expiresAtMs < 0 := by
  refine ⟨by decide, by decide, by decide, by decide, by decide, by decide⟩

/-- **C1 amended**: during a refresh_token rotation the successor record is
written by one storage call and the predecessor deleted by a later one (in
that order), so in the intermediate state between the two writes both
records of the chain coexist; once the handler completes, the predecessor is
gone and exactly the successor record of the chain remains. -/
theorem refresh_rotation_write_before_delete
    (sha hashRefreshToken : String → String) (st : MemoryStorage)
    (body : TokenRequestBody) (nowMs : Nat) (freshRefresh freshLock : String)
    (client : OAuthClientMetadata) (record : RefreshTokenRecord)
    (stMid : MemoryStorage) (nr : RefreshTokenRecord)
    (hg : body.grant_type = "refresh_token") (hc : body.client_id ≠ "")
    (hrt : body.refresh_token ≠ "")
    (hclient : getClient st body.client_id = some client)
    (hauth : client.tokenEndpointAuthMethod = "none")
    (hlockfree : lookupA (rotationLockKey (hashRefreshToken body.refresh_token)) st.locks = none)
    (hrec : lookupA (hashRefreshToken body.refresh_token) st.refreshTokens = some record)
    (hexp : ¬ record.expiresAtMs < nowMs)
    (hbc : record.clientId = body.client_id)
    (hsub : getSub record.userClaims ≠ "")
    (hneq : hashRefreshToken freshRefresh ≠ hashRefreshToken body.refresh_token)
    (hstMid : stMid = rotationMidState
      { st with
        locks := insertA (rotationLockKey (hashRefreshToken body.refresh_token))
          ⟨freshLock, nowMs + LOCK_TTL_SECONDS * 1000⟩ st.locks }
      record body.client_id (hashRefreshToken freshRefresh) nowMs)
    (hnr : nr = newRefreshRecord record body.client_id (hashRefreshToken freshRefresh) nowMs) :
    lookupA (hashRefreshToken body.refresh_token) stMid.refreshTokens = some record
    ∧ lookupA (hashRefreshToken freshRefresh) stMid.refreshTokens = some nr
    ∧ lookupA (hashRefreshToken body.refresh_token)
        (tokenEndpoint sha hashRefreshToken st body nowMs freshRefresh freshLock).state.refreshTokens
        = none
    ∧ lookupA (hashRefreshToken freshRefresh)
        (tokenEndpoint sha hashRefreshToken st body nowMs freshRefresh freshLock).state.refreshTokens
        = some nr
    ∧ (tokenEndpoint sha hashRefreshToken st body nowMs freshRefresh freshLock).ops =
      [.getClient body.client_id,
        .acquireLock (rotationLockKey (hashRefreshToken body.refresh_token)),
        .getRefreshTokenByHash (hashRefreshToken body.refresh_token),
        .putRefreshToken (hashRefreshToken freshRefresh),
        .deleteRefreshTokenByHash (hashRefreshToken body.refresh_token),
        .releaseLock (rotationLockKey (hashRefreshToken body.refresh_token))] := by
  subst hstMid hnr
  have hrun := refresh_rotation_run sha hashRefreshToken st body nowMs freshRefresh freshLock
    client record hg hc hrt hclient hauth hlockfree hrec hexp hbc hsub
  refine ⟨?_, ?_, ?_, ?_, ?_⟩
  · simp only [rotationMidState, putRefreshToken, newRefreshRecord]
    rw [lookupA_insertA_ne _ _ (Ne.symm hneq)]
    exact hrec
  · simp only [rotationMidState, putRefreshToken, newRefreshRecord]
    exact lookupA_insertA_self _ _ _
  · rw [hrun]
    exact lookupA_eraseA_self _ _
  · rw [hrun]
    show lookupA (hashRefreshToken freshRefresh)
      (eraseA (hashRefreshToken body.refresh_token) _) = _
    rw [lookupA_eraseA_ne _ hneq]
    exact lookupA_insertA_self _ _ _
  · rw [hrun]

/-- Witness for the amended C1 at the concrete rotation of `rtStW`. -/
theorem refresh_rotation_write_before_delete_witness :
    lookupA "old#" (rotationMidState rtLockedStW rtRecW "c" "new#" 0).refreshTokens =
      some rtRecW
    ∧ lookupA "new#" (rotationMidState rtLockedStW rtRecW "c" "new#" 0).refreshTokens =
      some (newRefreshRecord rtRecW "c" "new#" 0)
    ∧ lookupA "old#"
        (tokenEndpoint (fun s => s) (fun s => s ++ "#") rtStW rtBodyW 0 "new" "fl").state.refreshTokens
        = none
    ∧ lookupA "new#"
        (tokenEndpoint (fun s => s) (fun s => s ++ "#") rtStW rtBodyW 0 "new" "fl").state.refreshTokens
        = some (newRefreshRecord rtRecW "c" "new#" 0)
    ∧ (tokenEndpoint (fun s => s) (fun s => s ++ "#") rtStW rtBodyW 0 "new" "fl").ops =
      [.getClient "c", .acquireLock "oauth:rtlock:old#", .getRefreshTokenByHash "old#",
        .putRefreshToken "new#", .deleteRefreshTokenByHash "old#",
        .releaseLock "oauth:rtlock:old#"] :=
  refresh_rotation_write_before_delete (fun s => s) (fun s => s ++ "#") rtStW rtBodyW 0
    "new" "fl" clientW rtRecW (rotationMidState rtLockedStW rtRecW "c" "new#" 0)
    (newRefreshRecord rtRecW "c" "new#" 0)
    rfl (by decide) (by decide) (by decide) rfl (by decide) (by decide) (by decide) rfl
    (by decide) (by decide) (by decide) rfl

/-! Splitting lemmas for `jsSplit2`. -/

theorem splitFirst_of_not_mem (sep : Char) (s : List Char) (h : sep ∉ s) :
    splitFirst sep s = none := by
  induction s with
  | nil => rfl
  | cons c rest ih =>
    rw [List.mem_cons] at h
    push_neg at h
    simp [splitFirst, Ne.symm h.1, ih h.2]

theorem splitFirst_append_cons (sep : Char) (a r : List Char) (h : sep ∉ a) :
    splitFirst sep (a ++ sep :: r) = some (a, r) := by
  induction a with
  | nil => simp [splitFirst]
  | cons c rest ih =>
    rw [List.mem_cons] at h
    push_neg at h
    simp [splitFirst, Ne.symm h.1, ih h.2]

theorem jsSplit2_none (sep : Char) (s : List Char) (h : sep ∉ s) :
    jsSplit2 sep s = (s, none) := by
  simp [jsSplit2, splitFirst_of_not_mem sep s h]

theorem jsSplit2_clean (sep : Char) (a b : List Char) (ha : sep ∉ a) (hb : sep ∉ b) :
    jsSplit2 sep (a ++ sep :: b) = (a, some b) := by
  simp [jsSplit2, splitFirst_append_cons sep a b ha, splitFirst_of_not_mem sep b hb]

theorem jsSplit2_two (sep : Char) (a b c : List Char) (ha : sep ∉ a) (hb : sep ∉ b) :
    jsSplit2 sep (a ++ sep :: (b ++ sep :: c)) = (a, some b) := by
  simp [jsSplit2, splitFirst_append_cons sep a _ ha, splitFirst_append_cons sep b c hb]

theorem verifyState_ok_of {T : Type} (hmacSha256Hex b64decode : List Char → List Char)
    (deser : List Char → Option (SignedStateRep T)) (sig bodyB64 : List Char)
    (rep : SignedStateRep T)
    (hsigNe : sig ≠ []) (hBodyNe : bodyB64 ≠ [])
    (hsigDot : '.' ∉ sig) (hBodyDot : '.' ∉ bodyB64)
    (hsig : sig = hmacSha256Hex bodyB64)
    (hRound : deser (b64decode bodyB64) = some rep)
    (t : Nat) (ht : ¬ rep.exp < t) :
    verifyState hmacSha256Hex b64decode deser (sig ++ '.' :: bodyB64) t = .ok rep := by
  have hsigNe' : hmacSha256Hex bodyB64 ≠ [] := hsig ▸ hsigNe
  simp only [verifyState, jsSplit2_clean '.' sig bodyB64 hsigDot hBodyDot]
  simp [hsigNe', hBodyNe, timingSafeEqualStr, hsig, hRound, ht]

theorem verifyState_expired_of {T : Type} (hmacSha256Hex b64decode : List Char → List Char)
    (deser : List Char → Option (SignedStateRep T)) (sig bodyB64 : List Char)
    (rep : SignedStateRep T)
    (hsigNe : sig ≠ []) (hBodyNe : bodyB64 ≠ [])
    (hsigDot : '.' ∉ sig) (hBodyDot : '.' ∉ bodyB64)
    (hsig : sig = hmacSha256Hex bodyB64)
    (hRound : deser (b64decode bodyB64) = some rep)
    (t : Nat) (ht : rep.exp < t) :
    verifyState hmacSha256Hex b64decode deser (sig ++ '.' :: bodyB64) t = .error .expired := by
  have hsigNe' : hmacSha256Hex bodyB64 ≠ [] := hsig ▸ hsigNe
  simp only [verifyState, jsSplit2_clean '.' sig bodyB64 hsigDot hBodyDot]
  simp [hsigNe', hBodyNe, timingSafeEqualStr, hsig, hRound, ht]

/-- Altering the character at any single position of a well-formed signed
token makes `verifyState` throw (under fixed-length, dot-free hmac output and
no hmac collision with the token's body among other strings). -/
theorem verifyState_tampered {T : Type} (hmacSha256Hex b64decode : List Char → List Char)
    (deser : List Char → Option (SignedStateRep T)) (L : Nat)
    (sig bodyB64 : List Char)
    (hLen : ∀ s, (hmacSha256Hex s).length = L)
    (hHexDot : ∀ s, '.' ∉ hmacSha256Hex s)
    (hsig : sig = hmacSha256Hex bodyB64)
    (hBodyDot : '.' ∉ bodyB64) (hBodyNe : bodyB64 ≠ [])
    (hColl : ∀ b, b ≠ bodyB64 → hmacSha256Hex b ≠ hmacSha256Hex bodyB64)
    (i : Nat) (c d : Char)
    (hd : (sig ++ '.' :: bodyB64)[i]? = some d) (hc : c ≠ d) (t : Nat) :
    ∃ e, verifyState hmacSha256Hex b64decode deser ((sig ++ '.' :: bodyB64).set i c) t
      = .error e := by
  have hsigLen : sig.length = L := by rw [hsig]; exact hLen bodyB64
  have hsigDot : '.' ∉ sig := by rw [hsig]; exact hHexDot bodyB64
  have hlt : i < (sig ++ '.' :: bodyB64).length := (List.getElem?_eq_some_iff.mp hd).1
  have hlen' : (sig ++ '.' :: bodyB64).length = sig.length + (bodyB64.length + 1) := by
    simp
  rcases Nat.lt_trichotomy i sig.length with hiL | hiE | hiR
  · -- tampered inside the signature part
    have hset : (sig ++ '.' :: bodyB64).set i c = sig.set i c ++ '.' :: bodyB64 :=
      List.set_append_left i c hiL
    have hd' : sig[i]? = some d := by rw [List.getElem?_append_left hiL] at hd; exact hd
    have hdi : sig[i] = d := by
      rw [List.getElem?_eq_getElem hiL] at hd'
      simpa using hd'
    rw [hset]
    by_cases hcd : c = '.'
    · -- the new character is the separator: the split moves
      subst hcd
      have hsplit : sig.set i '.' = sig.take i ++ '.' :: sig.drop (i + 1) :=
        List.set_eq_take_cons_drop '.' hiL
      have htake : ('.' : Char) ∉ sig.take i := fun hm => hsigDot (List.mem_of_mem_take hm)
      have hdrop : ('.' : Char) ∉ sig.drop (i + 1) := fun hm => hsigDot (List.mem_of_mem_drop hm)
      have hassoc : sig.set i '.' ++ '.' :: bodyB64 =
          sig.take i ++ '.' :: (sig.drop (i + 1) ++ '.' :: bodyB64) := by
        rw [hsplit]; simp
      have hsp : jsSplit2 '.' (sig.set i '.' ++ '.' :: bodyB64) =
          (sig.take i, some (sig.drop (i + 1))) := by
        rw [hassoc]; exact jsSplit2_two '.' _ _ _ htake hdrop
      by_cases h0 : sig.take i = []
      · exact ⟨.invalidFormat, by simp only [verifyState, hsp]; simp [h0]⟩
      · by_cases h1 : sig.drop (i + 1) = []
        · exact ⟨.invalidFormat, by simp only [verifyState, hsp]; simp [h1]⟩
        · have hneq2 : sig.take i ≠ hmacSha256Hex (sig.drop (i + 1)) := by
            intro heq
            have hlen1 := congrArg List.length heq
            rw [List.length_take, hLen] at hlen1
            have : min i sig.length = i := Nat.min_eq_left (Nat.le_of_lt hiL)
            omega
          exact ⟨.invalidSignature, by
            simp only [verifyState, hsp]; simp [h0, h1, timingSafeEqualStr, hneq2]⟩
    · -- the new character is not the separator: the signature no longer matches
      have hsDot : '.' ∉ sig.set i c := by
        intro hm
        rcases List.mem_or_eq_of_mem_set hm with h | h
        · exact hsigDot h
        · exact hcd h.symm
      have hsp : jsSplit2 '.' (sig.set i c ++ '.' :: bodyB64) = (sig.set i c, some bodyB64) :=
        jsSplit2_clean '.' _ _ hsDot hBodyDot
      have hsNe : sig.set i c ≠ [] := by
        intro h0
        rw [List.set_eq_nil_iff] at h0
        rw [h0] at hiL
        simp at hiL
      have hneqs : sig.set i c ≠ hmacSha256Hex bodyB64 := by
        rw [← hsig]
        intro heq
        have h2 := congrArg (fun l => l[i]?) heq
        simp only at h2
        rw [List.getElem?_eq_getElem (by simpa using hiL), List.getElem?_eq_getElem hiL,
          List.getElem_set_self] at h2
        rw [Option.some.injEq] at h2
        exact hc (h2.trans hdi)
      exact ⟨.invalidSignature, by
        simp only [verifyState, hsp]; simp [hsNe, hBodyNe, timingSafeEqualStr, hneqs]⟩
  · -- tampered at the separator position: no dot remains, format error
    have hd' : d = '.' := by
      rw [hiE, List.getElem?_append_right (Nat.le_refl _)] at hd
      simp [Nat.sub_self] at hd
      exact hd.symm
    have hset : (sig ++ '.' :: bodyB64).set i c = sig ++ c :: bodyB64 := by
      rw [hiE, List.set_append_right _ _ (Nat.le_refl _)]
      simp [Nat.sub_self]
    rw [hset]
    have hnodot : ('.' : Char) ∉ sig ++ c :: bodyB64 := by
      intro hm
      rcases List.mem_append.mp hm with h | h
      · exact hsigDot h
      · rcases List.mem_cons.mp h with h | h
        · exact hc (h.symm.trans hd'.symm)
        · exact hBodyDot h
    exact ⟨.invalidFormat, by simp only [verifyState, jsSplit2_none '.' _ hnodot]⟩
  · -- tampered inside the body part
    have hjlt : i - sig.length - 1 < bodyB64.length := by
      rw [hlen'] at hlt
      omega
    have hij : i - sig.length = (i - sig.length - 1) + 1 := by omega
    have hd' : bodyB64[i - sig.length - 1]? = some d := by
      rw [List.getElem?_append_right (Nat.le_of_lt hiR)] at hd
      rw [hij] at hd
      simpa using hd
    have hdj : bodyB64[i - sig.length - 1] = d := by
      rw [List.getElem?_eq_getElem hjlt] at hd'
      simpa using hd'
    have hset : (sig ++ '.' :: bodyB64).set i c =
        sig ++ '.' :: bodyB64.set (i - sig.length - 1) c := by
      rw [List.set_append_right _ _ (Nat.le_of_lt hiR), hij]
      rfl
    rw [hset]
    by_cases hcd : c = '.'
    · -- the new character is the separator: the split truncates the body
      subst hcd
      have hsplit : bodyB64.set (i - sig.length - 1) '.' =
          bodyB64.take (i - sig.length - 1) ++ '.' :: bodyB64.drop (i - sig.length - 1 + 1) :=
        List.set_eq_take_cons_drop '.' hjlt
      have htake : ('.' : Char) ∉ bodyB64.take (i - sig.length - 1) :=
        fun hm => hBodyDot (List.mem_of_mem_take hm)
      have hsp : jsSplit2 '.' (sig ++ '.' :: bodyB64.set (i - sig.length - 1) '.') =
          (sig, some (bodyB64.take (i - sig.length - 1))) := by
        rw [hsplit]
        exact jsSplit2_two '.' _ _ _ hsigDot htake
      by_cases h0 : bodyB64.take (i - sig.length - 1) = []
      · exact ⟨.invalidFormat, by simp only [verifyState, hsp]; simp [h0]⟩
      · have htne : bodyB64.take (i - sig.length - 1) ≠ bodyB64 := by
          intro heq
          have hlen1 := congrArg List.length heq
          rw [List.length_take] at hlen1
          omega
        have hneq2 : sig ≠ hmacSha256Hex (bodyB64.take (i - sig.length - 1)) := by
          intro heq
          apply hColl _ htne
          rw [← hsig]
          exact heq.symm
        by_cases hsNe : sig = []
        · exact ⟨.invalidFormat, by simp only [verifyState, hsp]; simp [hsNe]⟩
        · exact ⟨.invalidSignature, by
            simp only [verifyState, hsp]; simp [hsNe, h0, timingSafeEqualStr, hneq2]⟩
    · -- the new character is not the separator: the signature no longer matches
      have hbDot : '.' ∉ bodyB64.set (i - sig.length - 1) c := by
        intro hm
        rcases List.mem_or_eq_of_mem_set hm with h | h
        · exact hBodyDot h
        · exact hcd h.symm
      have hsp : jsSplit2 '.' (sig ++ '.' :: bodyB64.set (i - sig.length - 1) c) =
          (sig, some (bodyB64.set (i - sig.length - 1) c)) :=
        jsSplit2_clean '.' _ _ hsigDot hbDot
      have hbNe : bodyB64.set (i - sig.length - 1) c ≠ [] := by
        intro h0
        rw [List.set_eq_nil_iff] at h0
        exact hBodyNe h0
      have hbody' : bodyB64.set (i - sig.length - 1) c ≠ bodyB64 := by
        intro heq
        have h2 := congrArg (fun l => l[i - sig.length - 1]?) heq
        simp only at h2
        rw [List.getElem?_eq_getElem (by simpa using hjlt), List.getElem?_eq_getElem hjlt,
          List.getElem_set_self] at h2
        rw [Option.some.injEq] at h2
        exact hc (h2.trans hdj)
      have hneq2 : sig ≠ hmacSha256Hex (bodyB64.set (i - sig.length - 1) c) := by
        intro heq
        apply hColl _ hbody'
        rw [← hsig]
        exact heq.symm
      by_cases hsNe : sig = []
      · exact ⟨.invalidFormat, by simp only [verifyState, hsp]; simp [hsNe]⟩
      · exact ⟨.invalidSignature, by
          simp only [verifyState, hsp]; simp [hsNe, hbNe, timingSafeEqualStr, hneq2]⟩

/-- **C5** (signed-state integrity): verifying a freshly signed token before
its ttl has elapsed returns the embedded payload unchanged; altering the
token's character at any position makes verification throw; verifying after
the embedded expiry throws. The cryptographic collaborators are parameters,
with the properties a real HMAC-SHA256-hex / base64url / JSON stack provides
as hypotheses: fixed-length dot-free hmac output, no hmac collision with
this token's body, and decode/parse inverting encode/serialize on it. -/
theorem signState_verifyState_integrity {T : Type}
    (hmacSha256Hex b64encode b64decode : List Char → List Char)
    (ser : SignedStateRep T → List Char) (deser : List Char → Option (SignedStateRep T))
    (payload : T) (ttlSeconds nowSec : Nat) (L : Nat) (bodyB64 : List Char)
    (hB : bodyB64 = b64encode (ser ⟨payload, nowSec, nowSec + ttlSeconds⟩))
    (hLen : ∀ s, (hmacSha256Hex s).length = L) (hLpos : 0 < L)
    (hHexDot : ∀ s, '.' ∉ hmacSha256Hex s)
    (hBodyDot : '.' ∉ bodyB64) (hBodyNe : bodyB64 ≠ [])
    (hColl : ∀ b, b ≠ bodyB64 → hmacSha256Hex b ≠ hmacSha256Hex bodyB64)
    (hRound : deser (b64decode bodyB64) = some ⟨payload, nowSec, nowSec + ttlSeconds⟩) :
    (∀ t, t ≤ nowSec + ttlSeconds →
      verifyState hmacSha256Hex b64decode deser
        (signState hmacSha256Hex b64encode ser payload ttlSeconds nowSec) t =
        .ok ⟨payload, nowSec, nowSec + ttlSeconds⟩)
    ∧ (∀ (i : Nat) (c d : Char) (t : Nat),
        (signState hmacSha256Hex b64encode ser payload ttlSeconds nowSec)[i]? = some d →
        c ≠ d →
        ∃ e, verifyState hmacSha256Hex b64decode deser
          ((signState hmacSha256Hex b64encode ser payload ttlSeconds nowSec).set i c) t =
          .error e)
    ∧ (∀ t, nowSec + ttlSeconds < t →
      verifyState hmacSha256Hex b64decode deser
        (signState hmacSha256Hex b64encode ser payload ttlSeconds nowSec) t =
        .error .expired) := by
  have hsign : signState hmacSha256Hex b64encode ser payload ttlSeconds nowSec =
      hmacSha256Hex bodyB64 ++ '.' :: bodyB64 := by
    rw [hB]
    rfl
  have hsigNe : hmacSha256Hex bodyB64 ≠ [] := by
    intro h0
    have hl := hLen bodyB64
    rw [h0] at hl
    simp at hl
    omega
  refine ⟨fun t ht => ?_, fun i c d t hd hc => ?_, fun t ht => ?_⟩
  · rw [hsign]
    exact verifyState_ok_of _ _ _ _ _ _ hsigNe hBodyNe (hHexDot bodyB64) hBodyDot rfl hRound t
      (Nat.not_lt.mpr ht)
  · rw [hsign] at hd ⊢
    exact verifyState_tampered hmacSha256Hex b64decode deser L (hmacSha256Hex bodyB64) bodyB64
      hLen hHexDot rfl hBodyDot hBodyNe hColl i c d hd hc t
  · rw [hsign]
    exact verifyState_expired_of _ _ _ _ _ _ hsigNe hBodyNe (hHexDot bodyB64) hBodyDot rfl
      hRound t ht

/-- Concrete serializer for the C5 witness. -/
def serW : SignedStateRep Nat → List Char := fun _ => ['b']

/-- Concrete keyed-hash for the C5 witness: collision-free against `['b']`,
output length 1, no dots. -/
def hmacW : List Char → List Char := fun s => if s = ['b'] then ['X'] else ['Y']

/-- Concrete parser for the C5 witness, inverting `serW` on `['b']`. -/
def deserW : List Char → Option (SignedStateRep Nat) := fun s =>
  if s = ['b'] then some ⟨42, 100, 110⟩ else none

/-- Witness for C5: at a concrete secret stack the signed token verifies
before expiry, fails when its first character is altered, and fails after
expiry. -/
theorem signState_verifyState_integrity_witness :
    verifyState hmacW (fun s => s) deserW
      (signState hmacW (fun s => s) serW 42 10 100) 105 = .ok ⟨42, 100, 110⟩
    ∧ (∃ e, verifyState hmacW (fun s => s) deserW
        ((signState hmacW (fun s => s) serW (42 : Nat) 10 100).set 0 'Z') 105 = .error e)
    ∧ verifyState hmacW (fun s => s) deserW
      (signState hmacW (fun s => s) serW 42 10 100) 111 = .error .expired := by
  have h := signState_verifyState_integrity hmacW (fun s => s) (fun s => s) serW deserW
    42 10 100 1 ['b'] rfl
    (fun s => by by_cases hs : s = ['b'] <;> simp [hmacW, hs])
    (by decide)
    (fun s => by by_cases hs : s = ['b'] <;> simp [hmacW, hs])
    (by decide) (by decide)
    (fun b hb => by simp [hmacW, hb])
    (by decide)
  exact ⟨h.1 105 (by decide), h.2.1 0 'Z' 'X' 105 (by decide) (by decide),
    h.2.2 111 (by decide)⟩

end Scs
